import Mathlib

/-!
# Scene Timeline Synchronization & Multi-Clip Rendering Pipeline — verification

Shallow embedding of the pipeline's core components:

* the Segmenter (`splitScriptWithDurations` from `src/lib/multi-clip.ts`),
* the Clip Orchestrator (`requestClipVideos`, `checkAndDownloadClips`,
  `updateStep` from `src/lib/multi-clip.ts`, plus `SceneManager.requestVideos`),
* the Duration Adjuster (`VideoManager.adjustScene` / `adjustAllScenes`),
* the Compositor/Merger (`mergeClipsIntoVideo`, `mergeVideosWithAudioSync`,
  `getAudioDuration`, `getVideoDuration` from the ffmpeg module, and
  `TimelineComposer.compose`).

JavaScript number arithmetic is modelled exactly over `ℚ` (durations in
seconds) and `ℤ` (durations in milliseconds); `Math.round` is `round`
(half-up, `⌊x + 1/2⌋`, which agrees with JS for all inputs).  External
effects (provider submit/poll, ffprobe measurements, ffmpeg re-encodes)
are passed in as explicit oracles, and each ffmpeg invocation is modelled
by its effect on stream durations, as documented at the definition.
-/

namespace ShortsBaksa

/-! ## Segmenter (`src/lib/multi-clip.ts`) -/

/-- `Math.round(x * 10) / 10` — round to one decimal place, as in the source. -/
def round10 (x : ℚ) : ℚ := (round (x * 10) : ℚ) / 10

/-- A script section with its target duration in seconds
(`ScriptSection` in `src/lib/multi-clip.ts`). -/
structure ScriptSection where
  text : String
  duration : ℚ
deriving DecidableEq

/-- The sentence-ending characters of the split regex `(?<=[.!?。])\s*`. -/
def sentenceEnders : List Char := ['.', '!', '?', '。']

/-- ASCII whitespace, for the `trim()` calls. -/
def isWsChar (c : Char) : Bool := c = ' ' ∨ c = '\t' ∨ c = '\n' ∨ c = '\r'

/-- `String.prototype.trim()` (restricted to ASCII whitespace). -/
def trimStr (s : String) : String :=
  String.mk (((s.data.dropWhile isWsChar).reverse.dropWhile isWsChar).reverse)

/-- Split a character stream after every sentence-ending character.
The accumulator holds the current piece reversed. -/
def splitEnders : List Char → List Char → List String
  | [], cur => [String.mk cur.reverse]
  | c :: rest, cur =>
    if c ∈ sentenceEnders then
      String.mk (c :: cur).reverse :: splitEnders rest []
    else
      splitEnders rest (c :: cur)

/-- `splitIntoSentences` from `src/lib/multi-clip.ts`: split on
`(?<=[.!?。])\s*`, trim every piece, drop empty pieces.  (The regex's
whitespace consumption is subsumed by the subsequent `trim()`.) -/
def splitIntoSentences (script : String) : List String :=
  ((splitEnders script.data []).map trimStr).filter (· ≠ "")

/-- The source's sequential clamp:
`if (d < min) d = min; if (d > max) d = max;`. -/
def clampDur (minD maxD d : ℚ) : ℚ :=
  let d1 := if d < minD then minD else d
  if d1 > maxD then maxD else d1

/-- The greedy accumulation loop of `splitScriptWithDurations`:
`cur`/`curDur` are `currentSentences`/`currentDuration`; a section is
closed when adding the next sentence would exceed `target + 1.5`, or at
the final sentence (which is merged into the current section). -/
def sectionsGo (cps target minD maxD : ℚ) :
    List String → List String → ℚ → List ScriptSection
  | [], _, _ => []
  | [s], cur, curDur =>
    let sd := (s.length : ℚ) / cps
    [⟨String.intercalate " " (cur ++ [s]),
      round10 (clampDur minD maxD (curDur + sd))⟩]
  | s :: s2 :: rest, cur, curDur =>
    let sd := (s.length : ℚ) / cps
    if curDur + sd > target + 3/2 ∧ cur ≠ [] then
      ⟨String.intercalate " " cur, round10 (clampDur minD maxD curDur)⟩ ::
        sectionsGo cps target minD maxD (s2 :: rest) [s] sd
    else
      sectionsGo cps target minD maxD (s2 :: rest) (cur ++ [s]) (curDur + sd)

/-- `splitScriptWithDurations(script, audioDuration, targetClipDuration,
minDuration, maxDuration)` from `src/lib/multi-clip.ts`.  The TS defaults
are `targetClipDuration = 10`, `minDuration = 4`, `maxDuration = 10`;
here all parameters are explicit. -/
def splitScriptWithDurations (script : String) (audioDuration : ℚ)
    (targetClipDuration minDuration maxDuration : ℚ) : List ScriptSection :=
  let sentences := splitIntoSentences script
  let totalChars : ℚ := (script.length : ℚ)
  let charsPerSecond := totalChars / audioDuration
  let sections :=
    sectionsGo charsPerSecond targetClipDuration minDuration maxDuration sentences [] 0
  let totalCalculatedDuration := (sections.map ScriptSection.duration).sum
  let scaleFactor := audioDuration / totalCalculatedDuration
  sections.map fun s =>
    ⟨s.text, round10 (clampDur minDuration maxDuration (s.duration * scaleFactor))⟩

/-! ## Duration Adjuster (`VideoManager` in the scene pipeline) -/

/-- `AdjustmentType` from `VideoManager`. -/
inductive AdjustmentType where
  | none
  | freeze
  | ken_burns
  | loop
  | trim
deriving DecidableEq

/-- `VideoAdjustmentResult` (the fields relevant to durations). -/
structure VideoAdjustmentResult where
  adjustmentType : AdjustmentType
  originalDurationMs : ℤ
  targetDurationMs : ℤ
  finalDurationMs : ℤ
deriving DecidableEq

/-- The strategy-selection cascade of `VideoManager.adjustScene`,
modelled on stream durations (ms), returning the chosen
`adjustmentType` together with the duration of the adjusted (not yet
dubbed) video file.

* `videoDurationMs` / `audioDurationMs` are `scene.videoDurationMs` /
  `scene.audioDurationMs`; `diff = audioDurationMs - videoDurationMs`.
* The ffmpeg effects are modelled by their duration semantics: the plain
  copy keeps the clip's duration; `applyFreeze`, `applyKenBurns`,
  `applyLoop` and `applyTrim` all produce a video of exactly
  `audioDurationMs` (they are invoked with `audioDurationMs` as target).
* When `needsDubbing` (`!scene.audioIncluded && scene.audioPath`), the
  `addAudioToVideo` step muxes the narration segment with `-shortest`,
  so the output lasts `min` of the two stream durations (the source
  comments this as trimming to the shorter side); if that re-encode
  fails (`dubOk = false`), the code falls back to copying the video
  alone, so the video keeps the adjusted length.
* `finalDurationMs` is the ffprobe measurement of the produced file. -/
def selectAdjustment (videoDurationMs audioDurationMs : ℤ) : AdjustmentType × ℤ :=
  let diff := audioDurationMs - videoDurationMs
  if |diff| < 500 then (AdjustmentType.none, videoDurationMs)
  else if 0 < diff then
    if diff ≤ 2000 then (AdjustmentType.freeze, audioDurationMs)
    else if diff ≤ 4000 then (AdjustmentType.ken_burns, audioDurationMs)
    else (AdjustmentType.loop, audioDurationMs)
  else (AdjustmentType.trim, audioDurationMs)

/-- `VideoManager.adjustScene` assembled: strategy selection, adjusted
length, then the optional dubbing step. -/
def adjustScene (videoDurationMs audioDurationMs : ℤ)
    (audioIncluded hasAudioPath dubOk : Bool) : VideoAdjustmentResult :=
  let needsDubbing := !audioIncluded && hasAudioPath
  let sel := selectAdjustment videoDurationMs audioDurationMs
  let finalLen := if needsDubbing && dubOk then min sel.2 audioDurationMs else sel.2
  ⟨sel.1, videoDurationMs, audioDurationMs, finalLen⟩

/-- `Scene.videoStatus` values (`src/core/types`). -/
inductive VideoStatus where
  | pending
  | generating
  | completed
  | failed
  | adjusted
deriving DecidableEq

/-- `Scene` (the fields the adjuster and compositor touch). -/
structure Scene where
  id : ℕ
  text : String
  audioDurationMs : ℤ
  audioPath : Option String
  audioIncluded : Bool
  videoPath : Option String
  videoDurationMs : Option ℤ
  videoStatus : VideoStatus
  adjustmentType : Option AdjustmentType
  adjustedVideoPath : Option String
  errorMessage : Option String
deriving DecidableEq

/-- The guard of `adjustAllScenes`
(`scene.videoStatus !== 'completed' || !scene.videoPath ||
!scene.videoDurationMs` skips): only completed scenes with a truthy
video path (present and non-empty) and a truthy measured duration
(present and non-zero) are adjusted. -/
def adjustEligible (s : Scene) : Bool :=
  decide (s.videoStatus = VideoStatus.completed) &&
    decide (s.videoPath.getD "" ≠ "") && decide (s.videoDurationMs.getD 0 ≠ 0)

/-- The adjusted-clip path recorded on success (the source writes
`/videos/jobs/{jobId}/adjusted/scene_XX_adjusted.mp4`; only the fact a
fresh path is stored matters here). -/
def adjustedPathFor (s : Scene) : String :=
  "scene_" ++ toString s.id ++ "_adjusted.mp4"

/-- One iteration of the `adjustAllScenes` loop: eligible scenes are
adjusted (with the outcome of `adjustScene` supplied by the
`adjustOutcome` oracle, `.error` when frame extraction or a re-encode
threw); on success the scene becomes `adjusted`, on failure the scene is
kept with only `errorMessage` set. -/
def adjustSceneStep (adjustOutcome : Scene → Except String VideoAdjustmentResult)
    (scene : Scene) : Scene :=
  if adjustEligible scene then
    match adjustOutcome scene with
    | Except.ok r =>
        { scene with
          adjustmentType := some r.adjustmentType
          adjustedVideoPath := some (adjustedPathFor scene)
          videoStatus := VideoStatus.adjusted }
    | Except.error e =>
        { scene with errorMessage := some ("보정 실패: " ++ e) }
  else scene

/-- `VideoManager.adjustAllScenes`: every scene is processed
independently; a per-scene failure never aborts the batch. -/
def adjustAllScenes (scenes : List Scene)
    (adjustOutcome : Scene → Except String VideoAdjustmentResult) : List Scene :=
  scenes.map (adjustSceneStep adjustOutcome)

/-! ## Clip Orchestrator (`src/lib/multi-clip.ts`, `SceneManager`) -/

/-- `ClipInfo.status`. -/
inductive ClipStatus where
  | pending
  | processing
  | completed
  | failed
deriving DecidableEq

/-- `ClipInfo` from the shared types module. -/
structure ClipInfo where
  index : ℕ
  scriptSection : String
  prompt : String
  duration : ℚ
  status : ClipStatus
  jobId : Option String
  videoUrl : Option String
deriving DecidableEq

/-- The two providers `requestClipVideos` dispatches between. -/
inductive Provider where
  | higgsfield
  | veo
deriving DecidableEq

/-- The Veo duration clamp in `requestClipVideos`:
`if (duration < 4) duration = 4; if (duration > 8) duration = 8;`. -/
def clampVeoDuration (d : ℚ) : ℚ :=
  let d1 := if d < 4 then 4 else d
  if d1 > 8 then 8 else d1

/-- The duration actually submitted to the provider for a clip: clamped
into `[4, 8]` for Veo, passed through unchanged for Higgsfield. -/
def submittedDuration (provider : Provider) (clip : ClipInfo) : ℚ :=
  if provider = Provider.veo then clampVeoDuration clip.duration else clip.duration

/-- `requestClipVideos`: submits every clip in order; `submitResult i`
is the provider job id returned for the `i`-th clip (`Option.none` when
the request threw).  On success the clip records the submitted duration
and the job id and becomes `processing`; on failure it becomes `failed`
with its fields otherwise untouched. -/
def requestClipVideosGo (provider : Provider) (submitResult : ℕ → Option String) :
    ℕ → List ClipInfo → List ClipInfo
  | _, [] => []
  | i, clip :: rest =>
    let duration := submittedDuration provider clip
    let clip' :=
      match submitResult i with
      | some jid =>
          { clip with duration := duration, status := ClipStatus.processing,
                      jobId := some jid }
      | Option.none => { clip with status := ClipStatus.failed }
    clip' :: requestClipVideosGo provider submitResult (i + 1) rest

/-- `requestClipVideos(clips, provider, model)` (the model string only
selects the provider endpoint and is irrelevant to durations). -/
def requestClipVideos (clips : List ClipInfo) (provider : Provider)
    (submitResult : ℕ → Option String) : List ClipInfo :=
  requestClipVideosGo provider submitResult 0 clips

/-- `SceneManager.requestVideos` target duration (seconds):
`Math.max(4, Math.min(8, Math.round(audioDurationSec)))`, with
`audioDurationSec = 6` when `audioDurationMs` is absent or `0` (JS
truthiness) — applied for both providers. -/
def sceneTargetDurationSec (audioDurationMs : Option ℤ) : ℤ :=
  let audioSec : ℚ :=
    match audioDurationMs with
    | some ms => if ms = 0 then 6 else (ms : ℚ) / 1000
    | Option.none => 6
  max 4 (min 8 (round audioSec))

/-- A provider's answer to one status poll (`getVeoVideoResult` /
`getHiggsfieldVideoResult`): completed (with or without a `videoUrl`),
failed, still in progress, or the query itself threw. -/
inductive PollResult where
  | completedWith (videoUrl : Option String)
  | failed
  | inProgress
  | queryError
deriving DecidableEq

/-- One iteration of the `checkAndDownloadClips` loop, returning the
(possibly) updated clip and the `pendingCount` increment.  Clips already
`completed`/`failed` are skipped untouched; a clip whose `jobId` is
JS-falsy (absent or the empty string, `if (!clip.jobId)`) adds to
`failedCount` (not `pendingCount`) but is *not* updated; a completed
poll with a truthy url downloads and saves the payload (`savedUrl i` is
the local storage url) and marks the clip `completed`. -/
def checkClip (poll : String → PollResult) (savedUrl : ℕ → String)
    (i : ℕ) (clip : ClipInfo) : ClipInfo × ℕ :=
  if clip.status = ClipStatus.completed ∨ clip.status = ClipStatus.failed then
    (clip, 0)
  else if clip.jobId.getD "" = "" then
    (clip, 0)
  else
    match poll (clip.jobId.getD "") with
    | PollResult.completedWith u =>
        if u.getD "" ≠ "" then
          ({ clip with status := ClipStatus.completed,
                       videoUrl := some (savedUrl i) }, 0)
        else (clip, 1)
    | PollResult.failed => ({ clip with status := ClipStatus.failed }, 0)
    | PollResult.inProgress => (clip, 1)
    | PollResult.queryError => (clip, 1)

/-- The `checkAndDownloadClips` loop over the array, accumulating
`pendingCount`. -/
def checkClipsGo (poll : String → PollResult) (savedUrl : ℕ → String) :
    ℕ → List ClipInfo → List ClipInfo × ℕ
  | _, [] => ([], 0)
  | i, clip :: rest =>
    let r := checkClip poll savedUrl i clip
    let rs := checkClipsGo poll savedUrl (i + 1) rest
    (r.1 :: rs.1, r.2 + rs.2)

/-- `checkAndDownloadClips(clips, jobId)`: returns the updated clips and
`allCompleted = (pendingCount === 0)`. -/
def checkAndDownloadClips (clips : List ClipInfo) (poll : String → PollResult)
    (savedUrl : ℕ → String) : List ClipInfo × Bool :=
  let r := checkClipsGo poll savedUrl 0 clips
  (r.1, decide (r.2 = 0))

/-- `MultiClipStep.status`. -/
inductive StepStatus where
  | pending
  | processing
  | completed
  | failed
deriving DecidableEq

/-- `MultiClipStep` from the shared types module. -/
structure MultiClipStep where
  id : String
  name : String
  status : StepStatus
  startTime : Option String
  endTime : Option String
  error : Option String
deriving DecidableEq

/-- `Partial<MultiClipStep>`: for each field, `some v` when the update
object carries that key (so the spread `{...step, ...updates}`
overwrites it) and `Option.none` when the key is absent. -/
structure StepUpdates where
  id : Option String
  name : Option String
  status : Option StepStatus
  startTime : Option (Option String)
  endTime : Option (Option String)
  error : Option (Option String)

/-- The object spread `{...step, ...updates}`. -/
def applyStepUpdates (step : MultiClipStep) (u : StepUpdates) : MultiClipStep :=
  { id := u.id.getD step.id
    name := u.name.getD step.name
    status := u.status.getD step.status
    startTime := u.startTime.getD step.startTime
    endTime := u.endTime.getD step.endTime
    error := u.error.getD step.error }

/-- `updateStep(steps, stepId, updates)` from `src/lib/multi-clip.ts`. -/
def updateStep (steps : List MultiClipStep) (stepId : String)
    (updates : StepUpdates) : List MultiClipStep :=
  steps.map fun step =>
    if step.id = stepId then applyStepUpdates step updates else step

/-! ## Compositor / Merger (ffmpeg module, `mergeClipsIntoVideo`,
`TimelineComposer`) -/

/-- `getAudioDuration`: the ffprobe measurement, `60` when the probe
throws (`probe = Option.none`). -/
def getAudioDuration (probe : Option ℚ) : ℚ := probe.getD 60

/-- `getVideoDuration`: the ffprobe measurement, `0` when the probe
throws. -/
def getVideoDuration (probe : Option ℚ) : ℚ := probe.getD 0

/-- The outcome of `mergeVideosWithAudioSync`, modelled on durations:
`fillerDurationSec`/`fillerSourceIdx` describe the filler segment (if
any) appended by `createFillerFromLastFrame` (held last frame of the
clip at `fillerSourceIdx`); `concatDurationsSec` is the duration list of
the concatenated sequence; `outputDurationSec` is the length of the
output's video track, i.e. the concatenated length capped by
`-t audioDuration`. -/
structure MergeResult where
  fillerDurationSec : Option ℚ
  fillerSourceIdx : Option ℕ
  concatDurationsSec : List ℚ
  outputDurationSec : ℚ
deriving DecidableEq

/-- `mergeVideosWithAudioSync(videoPaths, audioPath, outputPath)`.
`videoProbes` are the per-clip ffprobe results (in list order) and
`audioProbe` the narration probe.  Empty input throws; otherwise, when
the measured total falls more than `0.5s` short of the audio, one filler
of `audioDuration - totalVideoDuration + 1` seconds is built from the
last clip's final frame and appended; the concat output is limited to
`-t audioDuration`. -/
def mergeVideosWithAudioSync (videoProbes : List (Option ℚ))
    (audioProbe : Option ℚ) : Except String MergeResult :=
  if videoProbes.isEmpty then Except.error "합칠 비디오가 없습니다."
  else
    let audioDuration := getAudioDuration audioProbe
    let durations := videoProbes.map getVideoDuration
    let totalVideoDuration := durations.sum
    if totalVideoDuration < audioDuration - 1/2 then
      let shortfall := audioDuration - totalVideoDuration + 1
      Except.ok
        ⟨some shortfall, some (videoProbes.length - 1),
          durations ++ [shortfall],
          min (totalVideoDuration + shortfall) audioDuration⟩
    else
      Except.ok ⟨Option.none, Option.none, durations,
        min totalVideoDuration audioDuration⟩

/-- The completed-clip filter of `mergeClipsIntoVideo`:
`clip.status === 'completed' && clip.videoUrl` (the url must be truthy:
present and non-empty). -/
def isCompletedClip (c : ClipInfo) : Bool :=
  decide (c.status = ClipStatus.completed) && decide (c.videoUrl.getD "" ≠ "")

/-- `mergeClipsIntoVideo`'s clip ordering: filter the completed clips,
then `.sort((a, b) => a.index - b.index)` (a stable sort on `index`). -/
def completedSorted (clips : List ClipInfo) : List ClipInfo :=
  (clips.filter isCompletedClip).mergeSort fun a b => decide (a.index ≤ b.index)

/-- `mergeClipsIntoVideo(clips, outputPath, audioPath?, audioDuration?)`:
zero completed clips is a fatal error; with an audio path
(`audio = some audioProbe`) the ordered completed clips are merged by
`mergeVideosWithAudioSync` (with `measure` supplying each clip file's
ffprobe result); without audio the plain concat `mergeVideos` is used.
The returned pair is the concatenation order and the audio-sync
outcome. -/
def mergeClipsIntoVideo (clips : List ClipInfo) (measure : ClipInfo → Option ℚ)
    (audio : Option (Option ℚ)) :
    Except String (List ClipInfo × Option MergeResult) :=
  let completedClips := completedSorted clips
  if completedClips.isEmpty then
    Except.error "합칠 수 있는 완료된 클립이 없습니다."
  else
    match audio with
    | some audioProbe =>
        (mergeVideosWithAudioSync (completedClips.map measure) audioProbe).map
          fun r => (completedClips, some r)
    | Option.none => Except.ok (completedClips, Option.none)

/-- The scene filter of `TimelineComposer.compose`
(`(s.videoStatus === 'adjusted' || s.videoStatus === 'completed') &&
(s.adjustedVideoPath || s.videoPath)`, paths truthy). -/
def isValidScene (s : Scene) : Bool :=
  (decide (s.videoStatus = VideoStatus.adjusted) ||
    decide (s.videoStatus = VideoStatus.completed)) &&
  (decide (s.adjustedVideoPath.getD "" ≠ "") ||
    decide (s.videoPath.getD "" ≠ ""))

/-- `TimelineComposer.compose`'s concatenation order: valid scenes,
sorted by `id` (`.sort((a, b) => a.id - b.id)`). -/
def validScenesSorted (scenes : List Scene) : List Scene :=
  (scenes.filter isValidScene).mergeSort fun a b => decide (a.id ≤ b.id)

/-! ### Segmenter lemmas -/

/-- `round` is monotone (derived from `round_eq` and floor monotonicity). -/
theorem round_le_round_of_le {y z : ℚ} (h : y ≤ z) : round y ≤ round z := by
  rw [round_eq, round_eq]
  exact Int.floor_mono (by linarith)

/-- Clamping then rounding to one decimal stays inside `[minD, maxD]`
whenever both bounds are integer multiples of `1/10`. -/
theorem round10_clampDur_mem (a b : ℤ) (minD maxD : ℚ) (hmin : minD = a / 10)
    (hmax : maxD = b / 10) (hle : minD ≤ maxD) (x : ℚ) :
    minD ≤ round10 (clampDur minD maxD x) ∧ round10 (clampDur minD maxD x) ≤ maxD := by
  have hcl1 : minD ≤ clampDur minD maxD x := by
    simp only [clampDur]
    split_ifs <;> linarith
  have hcl2 : clampDur minD maxD x ≤ maxD := by
    simp only [clampDur]
    split_ifs <;> linarith
  have hra : (a : ℚ) ≤ (round (clampDur minD maxD x * 10) : ℚ) := by
    have h2 : round ((a : ℤ) : ℚ) ≤ round (clampDur minD maxD x * 10) := by
      apply round_le_round_of_le
      linarith
    rw [round_intCast] at h2
    exact_mod_cast h2
  have hrb : (round (clampDur minD maxD x * 10) : ℚ) ≤ (b : ℚ) := by
    have h2 : round (clampDur minD maxD x * 10) ≤ round ((b : ℤ) : ℚ) := by
      apply round_le_round_of_le
      linarith
    rw [round_intCast] at h2
    exact_mod_cast h2
  unfold round10
  constructor
  · linarith
  · linarith

/-! ### Claim C1 -/

/-- C1 (amended): for every script with at least one sentence and every
measured audio duration `D > 0`, with `0 < minSeconds ≤ maxSeconds` both
integer multiples of `0.1`, every section returned by
`splitScriptWithDurations` has its duration in `[minSeconds, maxSeconds]`.
(The second half of the original claim — that the section durations sum
to within ±1s of `D` after the proportional rescaling pass — is false,
because the final re-clamp can undo the rescale; see the
counterexample.) -/
theorem c1_segmenter_durations_in_range (script : String)
    (audioDuration target minD maxD : ℚ) (a b : ℤ)
    (hmin : minD = (a : ℚ) / 10) (hmax : maxD = (b : ℚ) / 10)
    (hminpos : 0 < minD) (hle : minD ≤ maxD) (hD : 0 < audioDuration)
    (hsent : splitIntoSentences script ≠ []) :
    ∀ sec ∈ splitScriptWithDurations script audioDuration target minD maxD,
      minD ≤ sec.duration ∧ sec.duration ≤ maxD := by
  intro sec hsec
  simp only [splitScriptWithDurations, List.mem_map] at hsec
  obtain ⟨s, _, rfl⟩ := hsec
  exact round10_clampDur_mem a b minD maxD hmin hmax hle _

/-- Witness for C1: the amended claim instantiated at the script
`"Hi."` with `D = 3`, target `10`, bounds `[4, 10]`. -/
theorem c1_segmenter_durations_in_range_witness :
    ((4 : ℚ) = ((40 : ℤ) : ℚ) / 10 ∧ (10 : ℚ) = ((100 : ℤ) : ℚ) / 10 ∧
      (0 : ℚ) < 4 ∧ (4 : ℚ) ≤ 10 ∧ (0 : ℚ) < 3 ∧
      splitIntoSentences "Hi." ≠ []) ∧
    ∀ sec ∈ splitScriptWithDurations "Hi." 3 10 4 10,
      (4 : ℚ) ≤ sec.duration ∧ sec.duration ≤ 10 :=
  ⟨⟨by norm_num, by norm_num, by norm_num, by norm_num, by norm_num, by decide⟩,
    c1_segmenter_durations_in_range "Hi." 3 10 4 10 40 100 (by norm_num)
      (by norm_num) (by norm_num) (by norm_num) (by norm_num) (by decide)⟩

/-- Counterexample to C1 as stated: the single-sentence script of ten
characters with measured audio duration `D = 100` (target 10, bounds
`[4, 10]`) yields one section of duration `10`; the rescale pass
multiplies it by `10` but the final re-clamp brings it back to `10`, so
the sum of section durations is `10`, which is not within ±1s of `D`. -/
theorem c1_segmenter_sum_counterexample :
    ¬ (|((splitScriptWithDurations "aaaaaaaaa." 100 10 4 10).map
          ScriptSection.duration).sum - 100| ≤ 1) := by
  have hval : splitScriptWithDurations "aaaaaaaaa." 100 10 4 10 =
      [⟨"aaaaaaaaa.", 10⟩] := by
    have hs : splitIntoSentences "aaaaaaaaa." = ["aaaaaaaaa."] := by decide
    have hlen : (("aaaaaaaaa.".length : ℕ) : ℚ) = 10 := by
      norm_num [show "aaaaaaaaa.".length = 10 from rfl]
    unfold splitScriptWithDurations
    rw [hs]
    simp only [sectionsGo, hlen, List.nil_append, String.intercalate]
    norm_num [clampDur, round10, round_eq, List.map_cons, List.map_nil,
      List.sum_cons, List.sum_nil]
    decide
  rw [hval]
  norm_num

/-! ### Duration Adjuster lemmas -/

theorem adjustScene_adjustmentType (v a : ℤ) (ai hp dub : Bool) :
    (adjustScene v a ai hp dub).adjustmentType = (selectAdjustment v a).1 := rfl

theorem adjustScene_finalDurationMs (v a : ℤ) (ai hp dub : Bool) :
    (adjustScene v a ai hp dub).finalDurationMs =
      if ((!ai && hp) && dub) = true then min (selectAdjustment v a).2 a
      else (selectAdjustment v a).2 := rfl

theorem selectAdjustment_of_small (v a : ℤ) (h : |a - v| < 500) :
    selectAdjustment v a = (AdjustmentType.none, v) := by
  simp only [selectAdjustment]
  rw [if_pos h]

theorem selectAdjustment_of_freeze (v a : ℤ) (h1 : 500 ≤ a - v)
    (h2 : a - v ≤ 2000) : selectAdjustment v a = (AdjustmentType.freeze, a) := by
  simp only [selectAdjustment]
  rw [if_neg (by rw [abs_lt]; omega), if_pos (by omega), if_pos h2]

theorem selectAdjustment_of_ken_burns (v a : ℤ) (h1 : 2000 < a - v)
    (h2 : a - v ≤ 4000) :
    selectAdjustment v a = (AdjustmentType.ken_burns, a) := by
  simp only [selectAdjustment]
  rw [if_neg (by rw [abs_lt]; omega), if_pos (by omega), if_neg (by omega),
    if_pos h2]

theorem selectAdjustment_of_loop (v a : ℤ) (h1 : 4000 < a - v) :
    selectAdjustment v a = (AdjustmentType.loop, a) := by
  simp only [selectAdjustment]
  rw [if_neg (by rw [abs_lt]; omega), if_pos (by omega), if_neg (by omega),
    if_neg (by omega)]

theorem selectAdjustment_of_trim (v a : ℤ) (h1 : a - v ≤ -500) :
    selectAdjustment v a = (AdjustmentType.trim, a) := by
  simp only [selectAdjustment]
  rw [if_neg (by rw [abs_lt]; omega), if_neg (by omega)]

theorem selectAdjustment_snd (v a : ℤ) :
    (selectAdjustment v a).2 = if |a - v| < 500 then v else a := by
  simp only [selectAdjustment]
  split_ifs <;> rfl

/-! ### Claim C2 -/

/-- C2 (amended): `adjustScene` selects its correction strategy exactly
by `delta = targetDurationMs - clipDurationMs` (the cascade
`none`/`freeze`/`ken_burns`/`loop`/`trim` as claimed); when
`|delta| < 500` the adjustment type is `none` and `finalDurationMs`
equals the clip's original duration *provided no dubbing step runs*
(i.e. the provider baked the narration in, or no separate narration
segment exists, or the dub re-encode fails and falls back to the plain
copy).  When the dubbing step does run, its `-shortest` mux makes
`finalDurationMs = min clipDurationMs targetDurationMs`, which can
differ from the original duration. -/
theorem c2_adjust_strategy_selection (v a : ℤ) (ai hp dub : Bool) :
    (|a - v| < 500 →
      (adjustScene v a ai hp dub).adjustmentType = AdjustmentType.none) ∧
    (|a - v| < 500 → (ai = true ∨ hp = false ∨ dub = false) →
      (adjustScene v a ai hp dub).finalDurationMs = v) ∧
    (|a - v| < 500 → ai = false → hp = true → dub = true →
      (adjustScene v a ai hp dub).finalDurationMs = min v a) ∧
    (500 ≤ a - v → a - v ≤ 2000 →
      (adjustScene v a ai hp dub).adjustmentType = AdjustmentType.freeze) ∧
    (2000 < a - v → a - v ≤ 4000 →
      (adjustScene v a ai hp dub).adjustmentType = AdjustmentType.ken_burns) ∧
    (4000 < a - v →
      (adjustScene v a ai hp dub).adjustmentType = AdjustmentType.loop) ∧
    (a - v ≤ -500 →
      (adjustScene v a ai hp dub).adjustmentType = AdjustmentType.trim) := by
  refine ⟨?_, ?_, ?_, ?_, ?_, ?_, ?_⟩
  · intro h
    rw [adjustScene_adjustmentType, selectAdjustment_of_small v a h]
  · intro h hcase
    rw [adjustScene_finalDurationMs, selectAdjustment_of_small v a h]
    have hneg : ((!ai && hp) && dub) = false := by
      rcases hcase with h1 | h1 | h1 <;> simp [h1]
    rw [hneg]
    simp
  · intro h h1 h2 h3
    rw [adjustScene_finalDurationMs, selectAdjustment_of_small v a h]
    subst h1; subst h2; subst h3
    simp
  · intro h1 h2
    rw [adjustScene_adjustmentType, selectAdjustment_of_freeze v a h1 h2]
  · intro h1 h2
    rw [adjustScene_adjustmentType, selectAdjustment_of_ken_burns v a h1 h2]
  · intro h1
    rw [adjustScene_adjustmentType, selectAdjustment_of_loop v a h1]
  · intro h1
    rw [adjustScene_adjustmentType, selectAdjustment_of_trim v a h1]

/-- Witness for C2: a 5000ms clip against a 5000ms slot (`delta = 0`,
audio already included) keeps type `none` and its original duration; a
5000ms clip against a 6200ms slot (`delta = 1200`) gets `freeze`. -/
theorem c2_adjust_strategy_selection_witness :
    (|(5000 : ℤ) - 5000| < 500 ∧
      (adjustScene 5000 5000 true false true).adjustmentType =
        AdjustmentType.none ∧
      (adjustScene 5000 5000 true false true).finalDurationMs = 5000) ∧
    (500 ≤ (6200 : ℤ) - 5000 ∧ (6200 : ℤ) - 5000 ≤ 2000 ∧
      (adjustScene 5000 6200 true false true).adjustmentType =
        AdjustmentType.freeze) :=
  ⟨⟨by decide,
    (c2_adjust_strategy_selection 5000 5000 true false true).1 (by decide),
    (c2_adjust_strategy_selection 5000 5000 true false true).2.1 (by decide)
      (Or.inl rfl)⟩,
   ⟨by decide, by decide,
    ((c2_adjust_strategy_selection 5000 6200 true false true).2.2.2.1
      (by decide) (by decide))⟩⟩

/-- Counterexample to C2 as stated: clip 5000ms, target 4700ms
(`delta = -300`, so `|delta| < 500`), provider audio not included and a
narration segment present.  The adjustment type is `none` but the
dubbing step's `-shortest` trims the output to the 4700ms narration, so
`finalDurationMs = 4700 ≠ 5000`, contradicting "finalDurationMs equals
the clip's original duration". -/
theorem c2_adjust_none_duration_counterexample :
    |(4700 : ℤ) - 5000| < 500 ∧
    (adjustScene 5000 4700 false true true).adjustmentType =
      AdjustmentType.none ∧
    (adjustScene 5000 4700 false true true).finalDurationMs = 4700 ∧
    (adjustScene 5000 4700 false true true).finalDurationMs ≠ 5000 := by
  refine ⟨by decide, by decide, by decide, by decide⟩

/-! ### Claim C7 -/

/-- C7: a per-scene adjustment failure (frame extraction / re-encode
error, i.e. `outcome scene = .error e`) never aborts the batch —
`adjustAllScenes` still returns one scene per input scene, and the
failing scene falls back to its unmodified source clip (same
`videoPath`, same measured `videoDurationMs`, status still `completed`,
no adjusted path) with only `errorMessage` set.  Moreover, when the
dubbing re-encode inside `adjustScene` fails (`dubOk = false`), the
component still reports the achieved final duration: the duration of
the adjusted (undubbed) video, which may differ from the target. -/
theorem c7_adjust_failure_fallback (scenes : List Scene)
    (outcome : Scene → Except String VideoAdjustmentResult) :
    (adjustAllScenes scenes outcome).length = scenes.length ∧
    (∀ scene ∈ scenes, ∀ e : String,
      outcome scene = Except.error e →
      adjustSceneStep outcome scene ∈ adjustAllScenes scenes outcome ∧
      (adjustSceneStep outcome scene).videoPath = scene.videoPath ∧
      (adjustSceneStep outcome scene).videoDurationMs = scene.videoDurationMs ∧
      (adjustSceneStep outcome scene).videoStatus = scene.videoStatus ∧
      (adjustSceneStep outcome scene).adjustedVideoPath =
        scene.adjustedVideoPath ∧
      (adjustSceneStep outcome scene).errorMessage =
        (if adjustEligible scene then some ("보정 실패: " ++ e)
         else scene.errorMessage)) ∧
    (∀ v a : ℤ, ∀ ai hp : Bool,
      (adjustScene v a ai hp false).adjustmentType =
        (adjustScene v a ai hp true).adjustmentType ∧
      (adjustScene v a ai hp false).finalDurationMs =
        (if |a - v| < 500 then v else a)) := by
  refine ⟨by simp [adjustAllScenes], ?_, ?_⟩
  · intro scene hmem e herr
    refine ⟨List.mem_map_of_mem _ hmem, ?_, ?_, ?_, ?_, ?_⟩ <;>
      · simp only [adjustSceneStep, herr]
        split_ifs <;> rfl
  · intro v a ai hp
    constructor
    · rw [adjustScene_adjustmentType, adjustScene_adjustmentType]
    · rw [adjustScene_finalDurationMs, Bool.and_false, if_neg (by simp),
        selectAdjustment_snd]

/-- Witness for C7: one eligible completed scene whose adjustment
throws; the batch returns it with its source video fields intact and the
error message recorded. -/
theorem c7_adjust_failure_fallback_witness :
    ((fun _ : Scene => (Except.error "boom" : Except String VideoAdjustmentResult))
        (Scene.mk 1 "t" 5000 Option.none false (some "v.mp4") (some 5200)
          VideoStatus.completed Option.none Option.none Option.none) =
      Except.error "boom") ∧
    (adjustAllScenes
        [Scene.mk 1 "t" 5000 Option.none false (some "v.mp4") (some 5200)
          VideoStatus.completed Option.none Option.none Option.none]
        (fun _ => Except.error "boom")).length = 1 ∧
    (adjustSceneStep (fun _ => Except.error "boom")
        (Scene.mk 1 "t" 5000 Option.none false (some "v.mp4") (some 5200)
          VideoStatus.completed Option.none Option.none Option.none)).videoPath =
      some "v.mp4" ∧
    (adjustSceneStep (fun _ => Except.error "boom")
        (Scene.mk 1 "t" 5000 Option.none false (some "v.mp4") (some 5200)
          VideoStatus.completed Option.none Option.none Option.none)).videoStatus =
      VideoStatus.completed := by
  have h := c7_adjust_failure_fallback
    [Scene.mk 1 "t" 5000 Option.none false (some "v.mp4") (some 5200)
      VideoStatus.completed Option.none Option.none Option.none]
    (fun _ => Except.error "boom")
  have h2 := h.2.1
    (Scene.mk 1 "t" 5000 Option.none false (some "v.mp4") (some 5200)
      VideoStatus.completed Option.none Option.none Option.none)
    (by simp) "boom" rfl
  exact ⟨rfl, h.1, h2.2.1, h2.2.2.2.1⟩

/-! ### Claim C9 -/

/-- C9: `updateStep` returns an array of the same length; every step
whose id differs from the given id is exactly the original step, and
each step with the matching id has the update's present fields
overwritten and its absent fields kept. -/
theorem c9_updateStep_frame (steps : List MultiClipStep) (stepId : String)
    (u : StepUpdates) :
    (updateStep steps stepId u).length = steps.length ∧
    (∀ i (hi : i < steps.length)
        (ho : i < (updateStep steps stepId u).length),
      (steps.get ⟨i, hi⟩).id ≠ stepId →
        (updateStep steps stepId u).get ⟨i, ho⟩ = steps.get ⟨i, hi⟩) ∧
    (∀ i (hi : i < steps.length)
        (ho : i < (updateStep steps stepId u).length),
      (steps.get ⟨i, hi⟩).id = stepId →
        ((updateStep steps stepId u).get ⟨i, ho⟩).id =
          u.id.getD (steps.get ⟨i, hi⟩).id ∧
        ((updateStep steps stepId u).get ⟨i, ho⟩).name =
          u.name.getD (steps.get ⟨i, hi⟩).name ∧
        ((updateStep steps stepId u).get ⟨i, ho⟩).status =
          u.status.getD (steps.get ⟨i, hi⟩).status ∧
        ((updateStep steps stepId u).get ⟨i, ho⟩).startTime =
          u.startTime.getD (steps.get ⟨i, hi⟩).startTime ∧
        ((updateStep steps stepId u).get ⟨i, ho⟩).endTime =
          u.endTime.getD (steps.get ⟨i, hi⟩).endTime ∧
        ((updateStep steps stepId u).get ⟨i, ho⟩).error =
          u.error.getD (steps.get ⟨i, hi⟩).error) := by
  refine ⟨by simp [updateStep], ?_, ?_⟩
  · intro i hi ho hne
    simp only [List.get_eq_getElem] at hne ⊢
    simp [updateStep, List.getElem_map, hne]
  · intro i hi ho heq
    simp only [List.get_eq_getElem] at heq ⊢
    simp [updateStep, List.getElem_map, heq, applyStepUpdates]

/-- Witness for C9: two steps, updating the `"tts"` step's status; the
`"script"` step is returned unchanged and the `"tts"` step keeps its
name but takes the new status. -/
theorem c9_updateStep_frame_witness :
    (updateStep
        [MultiClipStep.mk "script" "s" StepStatus.pending Option.none
          Option.none Option.none,
         MultiClipStep.mk "tts" "t" StepStatus.pending Option.none Option.none
           Option.none] "tts"
        (StepUpdates.mk Option.none Option.none (some StepStatus.processing)
          Option.none Option.none Option.none)).length = 2 ∧
    (updateStep
        [MultiClipStep.mk "script" "s" StepStatus.pending Option.none
          Option.none Option.none,
         MultiClipStep.mk "tts" "t" StepStatus.pending Option.none Option.none
           Option.none] "tts"
        (StepUpdates.mk Option.none Option.none (some StepStatus.processing)
          Option.none Option.none Option.none)).get ⟨0, by simp [updateStep]⟩ =
      MultiClipStep.mk "script" "s" StepStatus.pending Option.none Option.none
        Option.none ∧
    ((updateStep
        [MultiClipStep.mk "script" "s" StepStatus.pending Option.none
          Option.none Option.none,
         MultiClipStep.mk "tts" "t" StepStatus.pending Option.none Option.none
           Option.none] "tts"
        (StepUpdates.mk Option.none Option.none (some StepStatus.processing)
          Option.none Option.none Option.none)).get
        ⟨1, by simp [updateStep]⟩).status = StepStatus.processing ∧
    ((updateStep
        [MultiClipStep.mk "script" "s" StepStatus.pending Option.none
          Option.none Option.none,
         MultiClipStep.mk "tts" "t" StepStatus.pending Option.none Option.none
           Option.none] "tts"
        (StepUpdates.mk Option.none Option.none (some StepStatus.processing)
          Option.none Option.none Option.none)).get
        ⟨1, by simp [updateStep]⟩).name = "t" := by
  have h := c9_updateStep_frame
    [MultiClipStep.mk "script" "s" StepStatus.pending Option.none Option.none
      Option.none,
     MultiClipStep.mk "tts" "t" StepStatus.pending Option.none Option.none
       Option.none] "tts"
    (StepUpdates.mk Option.none Option.none (some StepStatus.processing)
      Option.none Option.none Option.none)
  have h0 := h.2.1 0 (by decide) (by simp [updateStep]) (by decide)
  have h1 := h.2.2 1 (by decide) (by simp [updateStep]) (by decide)
  exact ⟨h.1, h0, h1.2.2.1, h1.2.1⟩

/-! ### Clip Orchestrator lemmas -/

theorem checkClip_settled_eq (poll : String → PollResult) (savedUrl : ℕ → String)
    (i : ℕ) (clip : ClipInfo)
    (h : clip.status = ClipStatus.completed ∨ clip.status = ClipStatus.failed) :
    checkClip poll savedUrl i clip = (clip, 0) := by
  unfold checkClip
  rw [if_pos h]

/-- A clip contributes `0` to `pendingCount` exactly when the returned
clip either has a JS-falsy job id or is no longer
`pending`/`processing`. -/
theorem checkClip_pending_iff (poll : String → PollResult)
    (savedUrl : ℕ → String) (i : ℕ) (clip : ClipInfo) :
    (checkClip poll savedUrl i clip).2 = 0 ↔
      ((checkClip poll savedUrl i clip).1.jobId.getD "" = "" ∨
        ((checkClip poll savedUrl i clip).1.status ≠ ClipStatus.pending ∧
          (checkClip poll savedUrl i clip).1.status ≠ ClipStatus.processing)) := by
  unfold checkClip
  by_cases hs : clip.status = ClipStatus.completed ∨ clip.status = ClipStatus.failed
  · rw [if_pos hs]
    rcases hs with h | h <;> simp [h]
  · rw [if_neg hs]
    have hps : clip.status = ClipStatus.pending ∨
        clip.status = ClipStatus.processing := by
      cases hstat : clip.status <;> simp_all
    by_cases hj : clip.jobId.getD "" = ""
    · rw [if_pos hj]
      simp [hj]
    · rw [if_neg hj]
      cases hpz : poll (clip.jobId.getD "") with
      | completedWith u =>
        by_cases hu : u.getD "" ≠ ""
        · simp [hu]
        · rcases hps with h | h <;> simp [hu, hj, h]
      | failed => simp
      | inProgress => rcases hps with h | h <;> simp [hj, h]
      | queryError => rcases hps with h | h <;> simp [hj, h]

theorem checkClipsGo_spec (poll : String → PollResult) (savedUrl : ℕ → String) :
    ∀ (cs : List ClipInfo) (i : ℕ),
      (checkClipsGo poll savedUrl i cs).1.length = cs.length ∧
      ((checkClipsGo poll savedUrl i cs).2 = 0 ↔
        ∀ c ∈ (checkClipsGo poll savedUrl i cs).1, c.jobId.getD "" ≠ "" →
          c.status ≠ ClipStatus.pending ∧ c.status ≠ ClipStatus.processing) ∧
      (∀ k (hk : k < cs.length)
          (hk2 : k < (checkClipsGo poll savedUrl i cs).1.length),
        (checkClipsGo poll savedUrl i cs).1.get ⟨k, hk2⟩ =
          (checkClip poll savedUrl (i + k) (cs.get ⟨k, hk⟩)).1)
  | [], i => by simp [checkClipsGo]
  | c :: cs, i => by
    obtain ⟨ih1, ih2, ih3⟩ := checkClipsGo_spec poll savedUrl cs (i + 1)
    refine ⟨by simp [checkClipsGo, ih1], ?_, ?_⟩
    · simp only [checkClipsGo, List.mem_cons, Nat.add_eq_zero]
      constructor
      · rintro ⟨h1, h2⟩ x (rfl | hx)
        · intro hjob
          have := (checkClip_pending_iff poll savedUrl i c).mp h1
          tauto
        · exact (ih2.mp h2) x hx
      · intro h
        constructor
        · apply (checkClip_pending_iff poll savedUrl i c).mpr
          by_cases hjob : (checkClip poll savedUrl i c).1.jobId.getD "" = ""
          · exact Or.inl hjob
          · exact Or.inr (h _ (Or.inl rfl) hjob)
        · exact ih2.mpr fun x hx => h x (Or.inr hx)
    · intro k hk hk2
      match k with
      | 0 => simp [checkClipsGo]
      | Nat.succ m =>
        have hm : m < cs.length := by simpa using hk
        have hm2 : m < (checkClipsGo poll savedUrl (i + 1) cs).1.length := by
          rw [ih1]; exact hm
        have := ih3 m hm hm2
        simpa [checkClipsGo, Nat.add_assoc, Nat.add_comm 1 m] using this

/-! ### Claim C6 -/

/-- C6 (amended): `checkAndDownloadClips` leaves every clip whose status
is already `completed` or `failed` unchanged, and returns
`allCompleted = true` exactly when no clip *that carries a truthy
provider job id* remains `pending`/`processing` in the returned array.
(The original claim's "no clip remains Pending or Processing" is false:
a clip with a JS-falsy `jobId` is counted toward `failedCount` — not
`pendingCount` — but is returned with its old `pending` status; see the
counterexample.) -/
theorem c6_pollOnce_settled (clips : List ClipInfo)
    (poll : String → PollResult) (savedUrl : ℕ → String) :
    (∀ k (hk : k < clips.length)
        (hk2 : k < (checkAndDownloadClips clips poll savedUrl).1.length),
      (clips.get ⟨k, hk⟩).status = ClipStatus.completed ∨
        (clips.get ⟨k, hk⟩).status = ClipStatus.failed →
      (checkAndDownloadClips clips poll savedUrl).1.get ⟨k, hk2⟩ =
        clips.get ⟨k, hk⟩) ∧
    ((checkAndDownloadClips clips poll savedUrl).2 = true ↔
      ∀ c ∈ (checkAndDownloadClips clips poll savedUrl).1,
        c.jobId.getD "" ≠ "" →
        c.status ≠ ClipStatus.pending ∧ c.status ≠ ClipStatus.processing) := by
  obtain ⟨h1, h2, h3⟩ := checkClipsGo_spec poll savedUrl clips 0
  constructor
  · intro k hk hk2 hsettled
    have hk2' : k < (checkClipsGo poll savedUrl 0 clips).1.length := hk2
    have hgoal : (checkAndDownloadClips clips poll savedUrl).1.get ⟨k, hk2⟩ =
        (checkClipsGo poll savedUrl 0 clips).1.get ⟨k, hk2'⟩ := rfl
    rw [hgoal, h3 k hk hk2',
      checkClip_settled_eq poll savedUrl (0 + k) _ hsettled]
  · simp only [checkAndDownloadClips, decide_eq_true_eq]
    exact h2

/-- Witness for C6: one `processing` clip with a job id whose poll
still reports in-progress: the clip is returned unchanged (the settled
sibling too) and `allCompleted` is `false`; flipping the poll to a
completed result with a url makes `allCompleted` true. -/
theorem c6_pollOnce_settled_witness :
    ((checkAndDownloadClips
        [ClipInfo.mk 0 "s" "p" 8 ClipStatus.completed (some "j0") (some "u0"),
         ClipInfo.mk 1 "s" "p" 8 ClipStatus.processing (some "j1") Option.none]
        (fun _ => PollResult.inProgress) (fun _ => "saved")).1.get
        ⟨0, by decide⟩ =
      ClipInfo.mk 0 "s" "p" 8 ClipStatus.completed (some "j0") (some "u0")) ∧
    (checkAndDownloadClips
        [ClipInfo.mk 0 "s" "p" 8 ClipStatus.completed (some "j0") (some "u0"),
         ClipInfo.mk 1 "s" "p" 8 ClipStatus.processing (some "j1") Option.none]
        (fun _ => PollResult.inProgress) (fun _ => "saved")).2 = false := by
  have h := c6_pollOnce_settled
    [ClipInfo.mk 0 "s" "p" 8 ClipStatus.completed (some "j0") (some "u0"),
     ClipInfo.mk 1 "s" "p" 8 ClipStatus.processing (some "j1") Option.none]
    (fun _ => PollResult.inProgress) (fun _ => "saved")
  refine ⟨h.1 0 (by decide) (by decide) (Or.inl rfl), ?_⟩
  have h2 := h.2
  by_contra hne
  have htrue : (checkAndDownloadClips
      [ClipInfo.mk 0 "s" "p" 8 ClipStatus.completed (some "j0") (some "u0"),
       ClipInfo.mk 1 "s" "p" 8 ClipStatus.processing (some "j1") Option.none]
      (fun _ => PollResult.inProgress) (fun _ => "saved")).2 = true := by
    cases hb : (checkAndDownloadClips
        [ClipInfo.mk 0 "s" "p" 8 ClipStatus.completed (some "j0") (some "u0"),
         ClipInfo.mk 1 "s" "p" 8 ClipStatus.processing (some "j1") Option.none]
        (fun _ => PollResult.inProgress) (fun _ => "saved")).2
    · exact absurd hb hne
    · rfl
  have := h2.mp htrue
  have hmem : ClipInfo.mk 1 "s" "p" 8 ClipStatus.processing (some "j1")
      Option.none ∈ (checkAndDownloadClips
        [ClipInfo.mk 0 "s" "p" 8 ClipStatus.completed (some "j0") (some "u0"),
         ClipInfo.mk 1 "s" "p" 8 ClipStatus.processing (some "j1") Option.none]
        (fun _ => PollResult.inProgress) (fun _ => "saved")).1 := by decide
  exact (this _ hmem (by simp)).2 rfl

/-- Counterexample to C6 as stated: a single `pending` clip with no
`jobId`.  `checkAndDownloadClips` counts it as failed (not pending), so
it returns `allCompleted = true` even though the returned array still
contains a clip in status `pending`. -/
theorem c6_pollOnce_counterexample :
    (checkAndDownloadClips
        [ClipInfo.mk 0 "s" "p" 8 ClipStatus.pending Option.none Option.none]
        (fun _ => PollResult.inProgress) (fun _ => "saved")).2 = true ∧
    ∃ c ∈ (checkAndDownloadClips
        [ClipInfo.mk 0 "s" "p" 8 ClipStatus.pending Option.none Option.none]
        (fun _ => PollResult.inProgress) (fun _ => "saved")).1,
      c.status = ClipStatus.pending := by
  constructor
  · decide
  · exact ⟨ClipInfo.mk 0 "s" "p" 8 ClipStatus.pending Option.none Option.none,
      by decide, rfl⟩

/-! ### Claim C8 -/

/-- For the Veo provider, the submitted duration is the clamp of the
clip's duration into `[4, 8]`. -/
theorem submittedDuration_veo_mem (clip : ClipInfo) :
    4 ≤ submittedDuration Provider.veo clip ∧
      submittedDuration Provider.veo clip ≤ 8 := by
  simp only [submittedDuration, clampVeoDuration, if_pos]
  split_ifs <;> constructor <;> linarith

theorem requestClipVideosGo_processing_duration (provider : Provider)
    (submit : ℕ → Option String) :
    ∀ (clips : List ClipInfo) (i : ℕ),
      ∀ c ∈ requestClipVideosGo provider submit i clips,
        c.status = ClipStatus.processing →
        ∃ orig ∈ clips, c.duration = submittedDuration provider orig
  | [], _ => by simp [requestClipVideosGo]
  | clip :: rest, i => by
    intro c hc hproc
    simp only [requestClipVideosGo, List.mem_cons] at hc
    rcases hc with rfl | hc
    · cases hsub : submit i with
      | none => simp [hsub] at hproc
      | some jid => exact ⟨clip, List.mem_cons_self _ _, by simp [hsub]⟩
    · obtain ⟨orig, horig, hdur⟩ :=
        requestClipVideosGo_processing_duration provider submit rest (i + 1) c
          hc hproc
      exact ⟨orig, List.mem_cons_of_mem _ horig, hdur⟩

/-- C8 (amended): in `requestClipVideos`, the Veo provider's submissions
are clamped into `[4, 8]` and every successfully submitted clip records
the clamped duration; and `SceneManager.requestVideos` clamps its
requested duration into `[4, 8]` for *both* providers.  (The original
claim's "for every selected provider" is false for the multi-clip
`requestClipVideos` path: the Higgsfield branch submits the section's
duration unclamped; see the counterexample.) -/
theorem c8_duration_clamped (clips : List ClipInfo)
    (submit : ℕ → Option String) :
    (∀ clip : ClipInfo,
      4 ≤ submittedDuration Provider.veo clip ∧
        submittedDuration Provider.veo clip ≤ 8) ∧
    (∀ c ∈ requestClipVideos clips Provider.veo submit,
      c.status = ClipStatus.processing →
        4 ≤ c.duration ∧ c.duration ≤ 8) ∧
    (∀ ms : Option ℤ,
      4 ≤ sceneTargetDurationSec ms ∧ sceneTargetDurationSec ms ≤ 8) := by
  refine ⟨submittedDuration_veo_mem, ?_, ?_⟩
  · intro c hc hproc
    obtain ⟨orig, _, hdur⟩ :=
      requestClipVideosGo_processing_duration Provider.veo submit clips 0 c hc
        hproc
    rw [hdur]
    exact submittedDuration_veo_mem orig
  · intro ms
    simp only [sceneTargetDurationSec]
    constructor
    · exact le_max_left _ _
    · exact max_le (by norm_num) (min_le_left _ _)

/-- Witness for C8: a Veo clip with raw section duration `20` is
submitted and recorded at the clamp `8 ∈ [4, 8]`; a measured 700ms
narration gives a scene target duration of `4` seconds. -/
theorem c8_duration_clamped_witness :
    ((ClipInfo.mk 0 "s" "p" 8 ClipStatus.processing (some "j")
        Option.none) ∈
      requestClipVideos
        [ClipInfo.mk 0 "s" "p" 20 ClipStatus.pending Option.none Option.none]
        Provider.veo (fun _ => some "j")) ∧
    ((ClipInfo.mk 0 "s" "p" 8 ClipStatus.processing (some "j")
        Option.none).status = ClipStatus.processing) ∧
    (4 ≤ (ClipInfo.mk 0 "s" "p" 8 ClipStatus.processing (some "j")
        Option.none).duration ∧
      (ClipInfo.mk 0 "s" "p" 8 ClipStatus.processing (some "j")
        Option.none).duration ≤ 8) ∧
    (4 ≤ sceneTargetDurationSec (some 700) ∧
      sceneTargetDurationSec (some 700) ≤ 8) := by
  have h := c8_duration_clamped
    [ClipInfo.mk 0 "s" "p" 20 ClipStatus.pending Option.none Option.none]
    (fun _ => some "j")
  have hmem : (ClipInfo.mk 0 "s" "p" 8 ClipStatus.processing (some "j")
      Option.none) ∈
      requestClipVideos
        [ClipInfo.mk 0 "s" "p" 20 ClipStatus.pending Option.none Option.none]
        Provider.veo (fun _ => some "j") := by
    simp only [requestClipVideos, requestClipVideosGo, submittedDuration,
      clampVeoDuration]
    norm_num
  exact ⟨hmem, rfl, h.2.1 _ hmem rfl, h.2.2 (some 700)⟩

/-- Counterexample to C8 as stated: for the Higgsfield provider,
`requestClipVideos` submits the raw section duration — here `20`
seconds — and records it unchanged, even though `20` lies in no
provider's legal range (neither `[4, 8]` nor `[5, 10]`); no clamping
happens on this path. -/
theorem c8_higgsfield_unclamped_counterexample :
    submittedDuration Provider.higgsfield
      (ClipInfo.mk 0 "s" "p" 20 ClipStatus.pending Option.none Option.none) =
      20 ∧
    (∃ c ∈ requestClipVideos
        [ClipInfo.mk 0 "s" "p" 20 ClipStatus.pending Option.none Option.none]
        Provider.higgsfield (fun _ => some "hf-job"),
      c.status = ClipStatus.processing ∧ c.duration = 20) ∧
    ¬ ((4 : ℚ) ≤ 20 ∧ (20 : ℚ) ≤ 8) ∧ ¬ ((5 : ℚ) ≤ 20 ∧ (20 : ℚ) ≤ 10) := by
  refine ⟨rfl, ?_, by norm_num, by norm_num⟩
  refine ⟨ClipInfo.mk 0 "s" "p" 20 ClipStatus.processing (some "hf-job")
    Option.none, ?_, rfl, rfl⟩
  simp [requestClipVideos, requestClipVideosGo, submittedDuration]

/-! ### Compositor / Merger lemmas -/

/-- In the shortfall case, `mergeVideosWithAudioSync` appends exactly
one filler (built from the final clip) and the `-t` cap makes the
output exactly the narration length. -/
theorem mergeVideosWithAudioSync_filler (videoProbes : List (Option ℚ))
    (audioProbe : Option ℚ) (hne : videoProbes ≠ [])
    (hshort : (videoProbes.map getVideoDuration).sum <
      getAudioDuration audioProbe - 1/2) :
    mergeVideosWithAudioSync videoProbes audioProbe =
      Except.ok
        (MergeResult.mk
          (some (getAudioDuration audioProbe -
            (videoProbes.map getVideoDuration).sum + 1))
          (some (videoProbes.length - 1))
          (videoProbes.map getVideoDuration ++
            [getAudioDuration audioProbe -
              (videoProbes.map getVideoDuration).sum + 1])
          (getAudioDuration audioProbe)) := by
  have hemp : videoProbes.isEmpty = false := List.isEmpty_eq_false.mpr hne
  simp only [mergeVideosWithAudioSync, hemp, Bool.false_eq_true, if_false]
  rw [if_pos hshort, min_eq_right (by linarith)]

/-! ### Claim C4 -/

/-- C4: when no clip is `completed` (with a stored video url), merging
raises the fatal error rather than producing any output — both at the
`mergeClipsIntoVideo` level and at the `mergeVideosWithAudioSync` level
for an empty clip list. -/
theorem c4_merge_zero_completed_fails (clips : List ClipInfo)
    (measure : ClipInfo → Option ℚ) (audio : Option (Option ℚ))
    (h : ∀ c ∈ clips, isCompletedClip c = false) :
    mergeClipsIntoVideo clips measure audio =
      Except.error "합칠 수 있는 완료된 클립이 없습니다." ∧
    ∀ p : Option ℚ,
      mergeVideosWithAudioSync [] p = Except.error "합칠 비디오가 없습니다." := by
  have hfil : clips.filter isCompletedClip = [] :=
    List.filter_eq_nil_iff.mpr (by intro a ha; simp [h a ha])
  have hcs : completedSorted clips = [] := by
    rw [completedSorted, hfil, List.mergeSort_nil]
  constructor
  · simp only [mergeClipsIntoVideo, hcs]
    rfl
  · intro p
    rfl

/-- Witness for C4: a single failed clip — the merge fails with the
fatal error. -/
theorem c4_merge_zero_completed_fails_witness :
    (∀ c ∈ [ClipInfo.mk 0 "s" "p" 8 ClipStatus.failed Option.none Option.none],
      isCompletedClip c = false) ∧
    mergeClipsIntoVideo
        [ClipInfo.mk 0 "s" "p" 8 ClipStatus.failed Option.none Option.none]
        (fun _ => Option.none) (some (some 30)) =
      Except.error "합칠 수 있는 완료된 클립이 없습니다." :=
  ⟨by decide,
    (c4_merge_zero_completed_fails
      [ClipInfo.mk 0 "s" "p" 8 ClipStatus.failed Option.none Option.none]
      (fun _ => Option.none) (some (some 30)) (by decide)).1⟩

/-! ### Claim C3 -/

/-- C3: whenever at least one clip completed and the completed clips'
total measured duration falls more than `0.5s` short of the narration
duration, the merge succeeds and appends exactly one filler segment —
synthesized from the last clip of the index-sorted completed list —
held for `narrationDuration - totalClipDuration + 1` seconds, after the
last real clip, and the output's duration equals the narration duration
exactly (the `-t narrationDuration` cap truncates the one-second safety
margin). -/
theorem c3_filler_and_exact_output (clips : List ClipInfo)
    (measure : ClipInfo → Option ℚ) (audioProbe : Option ℚ)
    (hne : completedSorted clips ≠ [])
    (hshort : ((completedSorted clips).map
        fun c => getVideoDuration (measure c)).sum <
      getAudioDuration audioProbe - 1/2) :
    mergeClipsIntoVideo clips measure (some audioProbe) =
      Except.ok (completedSorted clips, some
        (MergeResult.mk
          (some (getAudioDuration audioProbe -
            ((completedSorted clips).map
              fun c => getVideoDuration (measure c)).sum + 1))
          (some ((completedSorted clips).length - 1))
          (((completedSorted clips).map
              fun c => getVideoDuration (measure c)) ++
            [getAudioDuration audioProbe -
              ((completedSorted clips).map
                fun c => getVideoDuration (measure c)).sum + 1])
          (getAudioDuration audioProbe))) := by
  have hmm : ((completedSorted clips).map measure).map getVideoDuration =
      (completedSorted clips).map fun c => getVideoDuration (measure c) := by
    rw [List.map_map]
    rfl
  have hne2 : (completedSorted clips).map measure ≠ [] := by
    simp [hne]
  have hsync := mergeVideosWithAudioSync_filler
    ((completedSorted clips).map measure) audioProbe hne2 (by rw [hmm]; exact hshort)
  have hemp : (completedSorted clips).isEmpty = false :=
    List.isEmpty_eq_false.mpr hne
  simp only [mergeClipsIntoVideo, hemp, Bool.false_eq_true, if_false]
  rw [hsync]
  simp only [Except.map, hmm, List.length_map]

/-- Witness for C3: one completed 10s clip against a 25s narration:
the merge returns the clip followed by one `25 - 10 + 1 = 16s` filler
sourced from that clip, and the output duration is exactly `25`. -/
theorem c3_filler_and_exact_output_witness :
    (completedSorted
        [ClipInfo.mk 0 "s" "p" 8 ClipStatus.completed (some "j") (some "u")] ≠
      [] ∧
      ((completedSorted
          [ClipInfo.mk 0 "s" "p" 8 ClipStatus.completed (some "j")
            (some "u")]).map
        fun _ => getVideoDuration (some 10)).sum <
        getAudioDuration (some 25) - 1/2) ∧
    mergeClipsIntoVideo
        [ClipInfo.mk 0 "s" "p" 8 ClipStatus.completed (some "j") (some "u")]
        (fun _ => some 10) (some (some 25)) =
      Except.ok
        ([ClipInfo.mk 0 "s" "p" 8 ClipStatus.completed (some "j") (some "u")],
          some (MergeResult.mk (some 16) (some 0) [10, 16] 25)) := by
  have hsorted : completedSorted
      [ClipInfo.mk 0 "s" "p" 8 ClipStatus.completed (some "j") (some "u")] =
      [ClipInfo.mk 0 "s" "p" 8 ClipStatus.completed (some "j") (some "u")] := by
    simp [completedSorted, isCompletedClip]
  have hne : completedSorted
      [ClipInfo.mk 0 "s" "p" 8 ClipStatus.completed (some "j") (some "u")] ≠
      [] := by
    rw [hsorted]
    simp
  have hshort : ((completedSorted
      [ClipInfo.mk 0 "s" "p" 8 ClipStatus.completed (some "j")
        (some "u")]).map
      fun _ => getVideoDuration (some 10)).sum <
      getAudioDuration (some 25) - 1/2 := by
    rw [hsorted]
    norm_num [getVideoDuration, getAudioDuration]
  have h := c3_filler_and_exact_output
    [ClipInfo.mk 0 "s" "p" 8 ClipStatus.completed (some "j") (some "u")]
    (fun _ => some 10) (some 25) hne hshort
  refine ⟨⟨hne, hshort⟩, ?_⟩
  rw [h, hsorted]
  norm_num [getVideoDuration, getAudioDuration]

/-! ### Claim C5 -/

/-- C5: the Compositor's concatenation order is the completed clips
sorted into ascending `index` order (and, in the scene pipeline,
`TimelineComposer.compose` orders the valid scenes by ascending `id`):
the merged output contains exactly the completed clips, pairwise in
ascending index order, regardless of the order in which polling
completed them. -/
theorem c5_merge_index_order (clips : List ClipInfo) (scenes : List Scene) :
    List.Pairwise (fun a b : ClipInfo => a.index ≤ b.index)
      (completedSorted clips) ∧
    (completedSorted clips).Perm (clips.filter isCompletedClip) ∧
    List.Pairwise (fun a b : Scene => a.id ≤ b.id)
      (validScenesSorted scenes) ∧
    (validScenesSorted scenes).Perm (scenes.filter isValidScene) := by
  refine ⟨?_, List.mergeSort_perm _ _, ?_, List.mergeSort_perm _ _⟩
  · have h := @List.sorted_mergeSort ClipInfo
      (fun a b => decide (a.index ≤ b.index))
      (by intro a b c h1 h2; simp only [decide_eq_true_eq] at h1 h2 ⊢; omega)
      (by intro a b; simp only [Bool.or_eq_true, decide_eq_true_eq]; omega)
      (clips.filter isCompletedClip)
    exact h.imp (by intro a b hab; simpa using hab)
  · have h := @List.sorted_mergeSort Scene
      (fun a b => decide (a.id ≤ b.id))
      (by intro a b c h1 h2; simp only [decide_eq_true_eq] at h1 h2 ⊢; omega)
      (by intro a b; simp only [Bool.or_eq_true, decide_eq_true_eq]; omega)
      (scenes.filter isValidScene)
    exact h.imp (by intro a b hab; simpa using hab)

/-! ### Claim C10 -/

/-- C10: when the ffprobe measurement fails, `getAudioDuration` returns
the default `60` and `getVideoDuration` returns `0` instead of raising;
the merger then proceeds (no error) and behaves exactly as if the audio
measured `60` seconds and a failed video probe measured `0` seconds,
feeding those defaults into its shortfall computation and
narration-length cap. -/
theorem c10_probe_failure_defaults (vps vps1 vps2 : List (Option ℚ))
    (p : Option ℚ) (hne : vps ≠ []) :
    getAudioDuration Option.none = 60 ∧
    getVideoDuration Option.none = 0 ∧
    (∃ r : MergeResult,
      mergeVideosWithAudioSync vps Option.none = Except.ok r) ∧
    mergeVideosWithAudioSync vps Option.none =
      mergeVideosWithAudioSync vps (some 60) ∧
    mergeVideosWithAudioSync (vps1 ++ Option.none :: vps2) p =
      mergeVideosWithAudioSync (vps1 ++ some 0 :: vps2) p := by
  refine ⟨rfl, rfl, ?_, rfl, ?_⟩
  · have hemp : vps.isEmpty = false := List.isEmpty_eq_false.mpr hne
    simp only [mergeVideosWithAudioSync, hemp, Bool.false_eq_true, if_false]
    split_ifs <;> exact ⟨_, rfl⟩
  · have hmap : (vps1 ++ Option.none :: vps2).map getVideoDuration =
        (vps1 ++ some 0 :: vps2).map getVideoDuration := by
      simp [getVideoDuration]
    have hlen : (vps1 ++ Option.none :: vps2).length =
        (vps1 ++ some 0 :: vps2).length := by simp
    have hemp : (vps1 ++ Option.none :: vps2).isEmpty =
        (vps1 ++ some 0 :: vps2).isEmpty := by
      cases vps1 <;> simp
    simp only [mergeVideosWithAudioSync, hmap, hlen, hemp]

/-- Witness for C10: one clip whose probe succeeded at `10s`, audio
probe failed: the merge still succeeds, exactly as with a measured
`60s` narration. -/
theorem c10_probe_failure_defaults_witness :
    ([some (10 : ℚ)] ≠ ([] : List (Option ℚ))) ∧
    getAudioDuration Option.none = 60 ∧
    (∃ r : MergeResult,
      mergeVideosWithAudioSync [some (10 : ℚ)] Option.none = Except.ok r) ∧
    mergeVideosWithAudioSync [some (10 : ℚ)] Option.none =
      mergeVideosWithAudioSync [some (10 : ℚ)] (some 60) := by
  have h := c10_probe_failure_defaults [some (10 : ℚ)] [] [] (some 5)
    (by simp)
  exact ⟨by simp, h.1, h.2.2.1, h.2.2.2.1⟩

end ShortsBaksa
